import Mathlib

/-!
Verification of the `crdsrt` playing-card parsing library.

Strings are modelled as `List Char` (Rust `&str` viewed as its character
sequence); byte-index slicing `&s[k..]` is modelled as `List.drop k`, and the
ASCII/byte-boundary justification for that modelling is itself proved as a
theorem.  Fallible functions (`Result<T>`) are modelled as
`Except ErrorKind T`.
-/

namespace Crdsrt

/-- `CardValue` from `src/card.rs`, variants in declaration order. -/
inductive CardValue
  | VA | V2 | V3 | V4 | V5 | V6 | V7 | V8 | V9 | VT | VJ | VQ | VK
deriving DecidableEq, Repr, Fintype

/-- `CardSuit` from `src/card.rs`, variants in declaration order. -/
inductive CardSuit
  | Clubs | Hearts | Spades | Diamonds
deriving DecidableEq, Repr, Fintype

/-- `Card` from `src/card.rs`: field `suit` is declared before field `val`. -/
structure Card where
  suit : CardSuit
  val : CardValue
deriving DecidableEq, Repr

/-- `Card::new(val, suit)`. -/
def Card.new (val : CardValue) (suit : CardSuit) : Card := ⟨suit, val⟩

/-- Variant discriminant of `CardValue` (declaration order), as used by the
derived `Ord` on a fieldless Rust enum. -/
def CardValue.idx : CardValue → Nat
  | .VA => 0 | .V2 => 1 | .V3 => 2 | .V4 => 3 | .V5 => 4 | .V6 => 5
  | .V7 => 6 | .V8 => 7 | .V9 => 8 | .VT => 9 | .VJ => 10 | .VQ => 11
  | .VK => 12

/-- Variant discriminant of `CardSuit` (declaration order). -/
def CardSuit.idx : CardSuit → Nat
  | .Clubs => 0 | .Hearts => 1 | .Spades => 2 | .Diamonds => 3

/-- The strict order `#[derive(Ord)]` puts on `CardValue`: comparison of
variant discriminants. -/
def CardValue.lt (a b : CardValue) : Prop := a.idx < b.idx

/-- The strict order `#[derive(Ord)]` puts on `CardSuit`. -/
def CardSuit.lt (a b : CardSuit) : Prop := a.idx < b.idx

/-- The strict order `#[derive(Ord)]` puts on `Card`: lexicographic in field
declaration order, `suit` first, then `val`. -/
def Card.lt (a b : Card) : Prop :=
  a.suit.lt b.suit ∨ (a.suit = b.suit ∧ a.val.lt b.val)

instance (a b : CardValue) : Decidable (a.lt b) := Nat.decLt _ _

instance (a b : CardSuit) : Decidable (a.lt b) := Nat.decLt _ _

instance (a b : Card) : Decidable (a.lt b) := by
  unfold Card.lt; infer_instance

instance : Fintype Card :=
  Fintype.ofEquiv (CardSuit × CardValue)
    { toFun := fun p => ⟨p.1, p.2⟩
      invFun := fun c => (c.suit, c.val)
      left_inv := fun _ => rfl
      right_inv := fun _ => rfl }

/-- The two variants of the library-wide `ErrorKind` in `src/lib.rs`, each
carrying the offending input text. -/
inductive ErrorKind
  | UnrecognizedSuit (t : List Char)
  | UnrecognizedCardValue (t : List Char)
deriving DecidableEq, Repr

/-- The `match chars.next() { ... }` block of `Card::read_value`: inspect
the first character of `s` and produce the byte offset `start` (`1`, or `2`
for the two-character `"10"` token) together with the decoded
`Option<CardValue>`.  Rust's match on character literals is a first-match
chain of equality tests, rendered here as nested `if`s in arm order. -/
def read_value_scan (s : List Char) : Nat × Option CardValue :=
  match s with
  | [] => (1, none)
  | c :: t =>
    if c = 'A' then (1, some CardValue.VA)
    else if c = '2' then (1, some CardValue.V2)
    else if c = '3' then (1, some CardValue.V3)
    else if c = '4' then (1, some CardValue.V4)
    else if c = '5' then (1, some CardValue.V5)
    else if c = '6' then (1, some CardValue.V6)
    else if c = '7' then (1, some CardValue.V7)
    else if c = '8' then (1, some CardValue.V8)
    else if c = '9' then (1, some CardValue.V9)
    else if c = 'T' then (1, some CardValue.VT)
    else if c = 'J' then (1, some CardValue.VJ)
    else if c = 'Q' then (1, some CardValue.VQ)
    else if c = 'K' then (1, some CardValue.VK)
    else if c = '1' then
      match t with
      | [] => (1, none)
      | d :: _ => if d = '0' then (2, some CardValue.VT) else (1, none)
    else (1, none)

/-- `Card::read_value` from `src/card.rs`: scan the front of `s` for a value
token; a `Some` is mapped to `(v, &s[start..])`, a `None` to
`UnrecognizedCardValue(s)` (carrying the whole input `s`). -/
def read_value (s : List Char) : Except ErrorKind (CardValue × List Char) :=
  match read_value_scan s with
  | (start, some v) => Except.ok (v, s.drop start)
  | (_, none) => Except.error (ErrorKind.UnrecognizedCardValue s)

/-- The `match str.chars().next() { ... }` block of `Card::read_suit`. -/
def read_suit_scan (s : List Char) : Option CardSuit :=
  match s with
  | [] => none
  | c :: _ =>
    if c = 'S' then some CardSuit.Spades
    else if c = 'H' then some CardSuit.Hearts
    else if c = 'D' then some CardSuit.Diamonds
    else if c = 'C' then some CardSuit.Clubs
    else none

/-- `Card::read_suit` from `src/card.rs`: decode a suit token from the front
of `s`; a success returns `(suit, &str[1..])`, a failure
`UnrecognizedSuit(str)` (carrying the whole input). -/
def read_suit (s : List Char) : Except ErrorKind (CardSuit × List Char) :=
  match read_suit_scan s with
  | some su => Except.ok (su, s.drop 1)
  | none => Except.error (ErrorKind.UnrecognizedSuit s)

/-- `Card::parse` from `src/card.rs`: read a value, read a suit from the
remainder, build the card; the `?` operator propagates the first error. -/
def parse (s : List Char) : Except ErrorKind (Card × List Char) :=
  match read_value s with
  | .error e => .error e
  | .ok (val, rest) =>
    match read_suit rest with
    | .error e => .error e
    | .ok (suit, rest2) => .ok (Card.new val suit, rest2)

/-- Rust `char::is_whitespace`: membership in the Unicode `White_Space`
character set. -/
def rustIsWhitespace (c : Char) : Bool :=
  c.toNat ∈ [0x09, 0x0A, 0x0B, 0x0C, 0x0D, 0x20, 0x85, 0xA0, 0x1680,
    0x2000, 0x2001, 0x2002, 0x2003, 0x2004, 0x2005, 0x2006, 0x2007,
    0x2008, 0x2009, 0x200A, 0x2028, 0x2029, 0x202F, 0x205F, 0x3000]

/-- Rust `str::trim`: remove leading and trailing whitespace characters. -/
def trim (s : List Char) : List Char :=
  ((s.dropWhile rustIsWhitespace).reverse.dropWhile rustIsWhitespace).reverse

/-- Index of the first occurrence of `pat` as a contiguous subsequence of
`s` (the matcher underlying Rust `str::split` with a string pattern). -/
def findSub (pat : List Char) : List Char → Option Nat
  | [] => if pat.isPrefixOf ([] : List Char) then some 0 else none
  | c :: t =>
    if pat.isPrefixOf (c :: t) then some 0
    else (findSub pat t).map (· + 1)

/-- Worker for `rustSplit` on a nonempty pattern: cut at the first
occurrence of `pat` and continue past it.  `fuel` dominates the number of
cuts; `rustSplit` supplies enough for the recursion never to bottom out. -/
def rustSplitGo (fuel : Nat) (s pat : List Char) : List (List Char) :=
  match fuel with
  | 0 => [s]
  | fuel + 1 =>
    match findSub pat s with
    | none => [s]
    | some i => s.take i :: rustSplitGo fuel (s.drop (i + pat.length)) pat

/-- Rust `str::split` with a string pattern: pieces between occurrences of
`pat`.  An empty pattern matches at every character boundary, including the
boundaries at both ends. -/
def rustSplit (s pat : List Char) : List (List Char) :=
  if pat = [] then [] :: (s.map (fun c => [c]) ++ [[]])
  else rustSplitGo (s.length + 1) s pat

/-- `itertools` `fold_results` as instantiated in `Card::parse_vec_pat`:
fold the successes into the accumulator, pushing each parsed card (the first
component of each `(Card, rest)` pair, the remainder being discarded), and
stop at the first error. -/
def fold_results (acc : List Card) :
    List (Except ErrorKind (Card × List Char)) → Except ErrorKind (List Card)
  | [] => .ok acc
  | .error e :: _ => .error e
  | .ok c :: rest => fold_results (acc ++ [c.1]) rest

/-- `Card::parse_vec_pat` from `src/card.rs`: split on the pattern, trim
each piece, parse each trimmed piece, and fold the results. -/
def parse_vec_pat (s pat : List Char) : Except ErrorKind (List Card) :=
  fold_results [] (((rustSplit s pat).map trim).map parse)

/-- `Card::parse_vec` from `src/card.rs`: `parse_vec_pat` with pattern
`","`. -/
def parse_vec (s : List Char) : Except ErrorKind (List Card) :=
  parse_vec_pat s [',']

/-- The thirteen single-character value tokens, in source arm order. -/
def valueChars : List Char :=
  ['A', '2', '3', '4', '5', '6', '7', '8', '9', 'T', 'J', 'Q', 'K']

/-- The four suit tokens, in source arm order. -/
def suitChars : List Char := ['S', 'H', 'D', 'C']

instance {e a : Type} [DecidableEq e] [DecidableEq a] :
    DecidableEq (Except e a) := fun x y =>
  match x, y with
  | .ok u, .ok v =>
    if h : u = v then .isTrue (by rw [h]) else .isFalse (by simp [h])
  | .error u, .error v =>
    if h : u = v then .isTrue (by rw [h]) else .isFalse (by simp [h])
  | .ok _, .error _ => .isFalse (by simp)
  | .error _, .ok _ => .isFalse (by simp)

lemma read_value_scan_nil : read_value_scan [] = (1, none) := rfl

lemma read_value_scan_cons (c : Char) (t : List Char) :
    read_value_scan (c :: t) =
      if c = 'A' then (1, some CardValue.VA)
      else if c = '2' then (1, some CardValue.V2)
      else if c = '3' then (1, some CardValue.V3)
      else if c = '4' then (1, some CardValue.V4)
      else if c = '5' then (1, some CardValue.V5)
      else if c = '6' then (1, some CardValue.V6)
      else if c = '7' then (1, some CardValue.V7)
      else if c = '8' then (1, some CardValue.V8)
      else if c = '9' then (1, some CardValue.V9)
      else if c = 'T' then (1, some CardValue.VT)
      else if c = 'J' then (1, some CardValue.VJ)
      else if c = 'Q' then (1, some CardValue.VQ)
      else if c = 'K' then (1, some CardValue.VK)
      else if c = '1' then
        match t with
        | [] => (1, none)
        | d :: _ => if d = '0' then (2, some CardValue.VT) else (1, none)
      else (1, none) := rfl

/-- Exhaustive case analysis of `read_value`: for every input it either
decodes one of the fourteen token shapes or fails with
`UnrecognizedCardValue` carrying the whole input. -/
lemma read_value_cases (s : List Char) :
    (s = [] ∧ read_value s = .error (.UnrecognizedCardValue s)) ∨
    (∃ t, s = 'A' :: t ∧ read_value s = .ok (CardValue.VA, t)) ∨
    (∃ t, s = '2' :: t ∧ read_value s = .ok (CardValue.V2, t)) ∨
    (∃ t, s = '3' :: t ∧ read_value s = .ok (CardValue.V3, t)) ∨
    (∃ t, s = '4' :: t ∧ read_value s = .ok (CardValue.V4, t)) ∨
    (∃ t, s = '5' :: t ∧ read_value s = .ok (CardValue.V5, t)) ∨
    (∃ t, s = '6' :: t ∧ read_value s = .ok (CardValue.V6, t)) ∨
    (∃ t, s = '7' :: t ∧ read_value s = .ok (CardValue.V7, t)) ∨
    (∃ t, s = '8' :: t ∧ read_value s = .ok (CardValue.V8, t)) ∨
    (∃ t, s = '9' :: t ∧ read_value s = .ok (CardValue.V9, t)) ∨
    (∃ t, s = 'T' :: t ∧ read_value s = .ok (CardValue.VT, t)) ∨
    (∃ t, s = 'J' :: t ∧ read_value s = .ok (CardValue.VJ, t)) ∨
    (∃ t, s = 'Q' :: t ∧ read_value s = .ok (CardValue.VQ, t)) ∨
    (∃ t, s = 'K' :: t ∧ read_value s = .ok (CardValue.VK, t)) ∨
    (∃ u, s = '1' :: '0' :: u ∧ read_value s = .ok (CardValue.VT, u)) ∨
    (∃ t, s = '1' :: t ∧ (∀ u, t ≠ '0' :: u) ∧
      read_value s = .error (.UnrecognizedCardValue s)) ∨
    (∃ c t, s = c :: t ∧ c ∉ '1' :: valueChars ∧
      read_value s = .error (.UnrecognizedCardValue s)) := by
  have hval : ∀ s start v, read_value_scan s = (start, some v) →
      read_value s = .ok (v, s.drop start) := by
    intro s start v h
    unfold read_value
    rw [h]
  have herr : ∀ s start, read_value_scan s = (start, none) →
      read_value s = .error (.UnrecognizedCardValue s) := by
    intro s start h
    unfold read_value
    rw [h]
  rcases s with _ | ⟨c, t⟩
  · exact Or.inl ⟨rfl, herr [] 1 rfl⟩
  right
  by_cases h1 : c = 'A'
  · subst h1
    exact Or.inl ⟨t, rfl, hval _ 1 _ (by rw [read_value_scan_cons, if_pos rfl])⟩
  right
  by_cases h2 : c = '2'
  · subst h2
    exact Or.inl ⟨t, rfl, hval _ 1 _
      (by rw [read_value_scan_cons, if_neg h1, if_pos rfl])⟩
  right
  by_cases h3 : c = '3'
  · subst h3
    exact Or.inl ⟨t, rfl, hval _ 1 _
      (by rw [read_value_scan_cons, if_neg h1, if_neg h2, if_pos rfl])⟩
  right
  by_cases h4 : c = '4'
  · subst h4
    exact Or.inl ⟨t, rfl, hval _ 1 _
      (by rw [read_value_scan_cons, if_neg h1, if_neg h2, if_neg h3,
        if_pos rfl])⟩
  right
  by_cases h5 : c = '5'
  · subst h5
    exact Or.inl ⟨t, rfl, hval _ 1 _
      (by rw [read_value_scan_cons, if_neg h1, if_neg h2, if_neg h3,
        if_neg h4, if_pos rfl])⟩
  right
  by_cases h6 : c = '6'
  · subst h6
    exact Or.inl ⟨t, rfl, hval _ 1 _
      (by rw [read_value_scan_cons, if_neg h1, if_neg h2, if_neg h3,
        if_neg h4, if_neg h5, if_pos rfl])⟩
  right
  by_cases h7 : c = '7'
  · subst h7
    exact Or.inl ⟨t, rfl, hval _ 1 _
      (by rw [read_value_scan_cons, if_neg h1, if_neg h2, if_neg h3,
        if_neg h4, if_neg h5, if_neg h6, if_pos rfl])⟩
  right
  by_cases h8 : c = '8'
  · subst h8
    exact Or.inl ⟨t, rfl, hval _ 1 _
      (by rw [read_value_scan_cons, if_neg h1, if_neg h2, if_neg h3,
        if_neg h4, if_neg h5, if_neg h6, if_neg h7, if_pos rfl])⟩
  right
  by_cases h9 : c = '9'
  · subst h9
    exact Or.inl ⟨t, rfl, hval _ 1 _
      (by rw [read_value_scan_cons, if_neg h1, if_neg h2, if_neg h3,
        if_neg h4, if_neg h5, if_neg h6, if_neg h7, if_neg h8, if_pos rfl])⟩
  right
  by_cases h10 : c = 'T'
  · subst h10
    exact Or.inl ⟨t, rfl, hval _ 1 _
      (by rw [read_value_scan_cons, if_neg h1, if_neg h2, if_neg h3,
        if_neg h4, if_neg h5, if_neg h6, if_neg h7, if_neg h8, if_neg h9,
        if_pos rfl])⟩
  right
  by_cases h11 : c = 'J'
  · subst h11
    exact Or.inl ⟨t, rfl, hval _ 1 _
      (by rw [read_value_scan_cons, if_neg h1, if_neg h2, if_neg h3,
        if_neg h4, if_neg h5, if_neg h6, if_neg h7, if_neg h8, if_neg h9,
        if_neg h10, if_pos rfl])⟩
  right
  by_cases h12 : c = 'Q'
  · subst h12
    exact Or.inl ⟨t, rfl, hval _ 1 _
      (by rw [read_value_scan_cons, if_neg h1, if_neg h2, if_neg h3,
        if_neg h4, if_neg h5, if_neg h6, if_neg h7, if_neg h8, if_neg h9,
        if_neg h10, if_neg h11, if_pos rfl])⟩
  right
  by_cases h13 : c = 'K'
  · subst h13
    exact Or.inl ⟨t, rfl, hval _ 1 _
      (by rw [read_value_scan_cons, if_neg h1, if_neg h2, if_neg h3,
        if_neg h4, if_neg h5, if_neg h6, if_neg h7, if_neg h8, if_neg h9,
        if_neg h10, if_neg h11, if_neg h12, if_pos rfl])⟩
  right
  by_cases h14 : c = '1'
  · subst h14
    have hbase : read_value_scan ('1' :: t) =
        match t with
        | [] => (1, none)
        | d :: _ => if d = '0' then (2, some CardValue.VT) else (1, none) := by
      rw [read_value_scan_cons, if_neg h1, if_neg h2, if_neg h3, if_neg h4,
        if_neg h5, if_neg h6, if_neg h7, if_neg h8, if_neg h9, if_neg h10,
        if_neg h11, if_neg h12, if_neg h13, if_pos rfl]
    rcases t with _ | ⟨d, u⟩
    · right; left
      exact ⟨[], rfl, fun u h => List.noConfusion h, herr _ 1 hbase⟩
    · by_cases hd : d = '0'
      · subst hd
        left
        exact ⟨u, rfl, hval _ 2 _ (hbase.trans (if_pos rfl))⟩
      · right; left
        refine ⟨d :: u, rfl, ?_, herr _ 1 (hbase.trans (if_neg hd))⟩
        intro u' hu
        exact hd (List.head_eq_of_cons_eq hu)
  right; right
  refine ⟨c, t, rfl, ?_, herr _ 1 ?_⟩
  · intro hmem
    simp only [valueChars, List.mem_cons, List.not_mem_nil, or_false] at hmem
    rcases hmem with h | h | h | h | h | h | h | h | h | h | h | h | h | h
    · exact h14 h
    · exact h1 h
    · exact h2 h
    · exact h3 h
    · exact h4 h
    · exact h5 h
    · exact h6 h
    · exact h7 h
    · exact h8 h
    · exact h9 h
    · exact h10 h
    · exact h11 h
    · exact h12 h
    · exact h13 h
  · rw [read_value_scan_cons, if_neg h1, if_neg h2, if_neg h3, if_neg h4,
      if_neg h5, if_neg h6, if_neg h7, if_neg h8, if_neg h9, if_neg h10,
      if_neg h11, if_neg h12, if_neg h13, if_neg h14]

lemma read_suit_scan_cons (c : Char) (t : List Char) :
    read_suit_scan (c :: t) =
      if c = 'S' then some CardSuit.Spades
      else if c = 'H' then some CardSuit.Hearts
      else if c = 'D' then some CardSuit.Diamonds
      else if c = 'C' then some CardSuit.Clubs
      else none := rfl

/-- Exhaustive case analysis of `read_suit`: for every input it either
decodes one of the four suit tokens, consuming one character, or fails with
`UnrecognizedSuit` carrying the whole input. -/
lemma read_suit_cases (s : List Char) :
    (s = [] ∧ read_suit s = .error (.UnrecognizedSuit s)) ∨
    (∃ t, s = 'S' :: t ∧ read_suit s = .ok (CardSuit.Spades, t)) ∨
    (∃ t, s = 'H' :: t ∧ read_suit s = .ok (CardSuit.Hearts, t)) ∨
    (∃ t, s = 'D' :: t ∧ read_suit s = .ok (CardSuit.Diamonds, t)) ∨
    (∃ t, s = 'C' :: t ∧ read_suit s = .ok (CardSuit.Clubs, t)) ∨
    (∃ c t, s = c :: t ∧ c ∉ suitChars ∧
      read_suit s = .error (.UnrecognizedSuit s)) := by
  have hok : ∀ s su, read_suit_scan s = some su →
      read_suit s = .ok (su, s.drop 1) := by
    intro s su h
    unfold read_suit
    rw [h]
  have herr : ∀ s, read_suit_scan s = none →
      read_suit s = .error (.UnrecognizedSuit s) := by
    intro s h
    unfold read_suit
    rw [h]
  rcases s with _ | ⟨c, t⟩
  · exact Or.inl ⟨rfl, herr [] rfl⟩
  right
  by_cases h1 : c = 'S'
  · subst h1
    exact Or.inl ⟨t, rfl, hok _ _ (by rw [read_suit_scan_cons, if_pos rfl])⟩
  right
  by_cases h2 : c = 'H'
  · subst h2
    exact Or.inl ⟨t, rfl, hok _ _
      (by rw [read_suit_scan_cons, if_neg h1, if_pos rfl])⟩
  right
  by_cases h3 : c = 'D'
  · subst h3
    exact Or.inl ⟨t, rfl, hok _ _
      (by rw [read_suit_scan_cons, if_neg h1, if_neg h2, if_pos rfl])⟩
  right
  by_cases h4 : c = 'C'
  · subst h4
    exact Or.inl ⟨t, rfl, hok _ _
      (by rw [read_suit_scan_cons, if_neg h1, if_neg h2, if_neg h3,
        if_pos rfl])⟩
  right
  refine ⟨c, t, rfl, ?_, herr _ ?_⟩
  · intro hmem
    simp only [suitChars, List.mem_cons, List.not_mem_nil, or_false] at hmem
    rcases hmem with h | h | h | h
    · exact h1 h
    · exact h2 h
    · exact h3 h
    · exact h4 h
  · rw [read_suit_scan_cons, if_neg h1, if_neg h2, if_neg h3, if_neg h4]

/-- On success `read_value` consumed either one single-character token or
the two-character `"10"` token off the front of its input. -/
lemma read_value_ok_consumed (s : List Char) (v : CardValue) (r : List Char)
    (h : read_value s = .ok (v, r)) :
    (∃ c, c ∈ valueChars ∧ s = c :: r) ∨ s = '1' :: '0' :: r := by
  rcases read_value_cases s with ⟨rfl, he⟩ | ⟨t, rfl, he⟩ | ⟨t, rfl, he⟩ |
    ⟨t, rfl, he⟩ | ⟨t, rfl, he⟩ | ⟨t, rfl, he⟩ | ⟨t, rfl, he⟩ |
    ⟨t, rfl, he⟩ | ⟨t, rfl, he⟩ | ⟨t, rfl, he⟩ | ⟨t, rfl, he⟩ |
    ⟨t, rfl, he⟩ | ⟨t, rfl, he⟩ | ⟨t, rfl, he⟩ | ⟨t, rfl, he⟩ |
    ⟨t, rfl, hne, he⟩ | ⟨c, t, rfl, hmem, he⟩ <;> rw [he] at h
  · simp at h
  · obtain ⟨rfl, rfl⟩ := (by simpa using h : CardValue.VA = v ∧ t = r)
    exact Or.inl ⟨'A', by decide, rfl⟩
  · obtain ⟨rfl, rfl⟩ := (by simpa using h : CardValue.V2 = v ∧ t = r)
    exact Or.inl ⟨'2', by decide, rfl⟩
  · obtain ⟨rfl, rfl⟩ := (by simpa using h : CardValue.V3 = v ∧ t = r)
    exact Or.inl ⟨'3', by decide, rfl⟩
  · obtain ⟨rfl, rfl⟩ := (by simpa using h : CardValue.V4 = v ∧ t = r)
    exact Or.inl ⟨'4', by decide, rfl⟩
  · obtain ⟨rfl, rfl⟩ := (by simpa using h : CardValue.V5 = v ∧ t = r)
    exact Or.inl ⟨'5', by decide, rfl⟩
  · obtain ⟨rfl, rfl⟩ := (by simpa using h : CardValue.V6 = v ∧ t = r)
    exact Or.inl ⟨'6', by decide, rfl⟩
  · obtain ⟨rfl, rfl⟩ := (by simpa using h : CardValue.V7 = v ∧ t = r)
    exact Or.inl ⟨'7', by decide, rfl⟩
  · obtain ⟨rfl, rfl⟩ := (by simpa using h : CardValue.V8 = v ∧ t = r)
    exact Or.inl ⟨'8', by decide, rfl⟩
  · obtain ⟨rfl, rfl⟩ := (by simpa using h : CardValue.V9 = v ∧ t = r)
    exact Or.inl ⟨'9', by decide, rfl⟩
  · obtain ⟨rfl, rfl⟩ := (by simpa using h : CardValue.VT = v ∧ t = r)
    exact Or.inl ⟨'T', by decide, rfl⟩
  · obtain ⟨rfl, rfl⟩ := (by simpa using h : CardValue.VJ = v ∧ t = r)
    exact Or.inl ⟨'J', by decide, rfl⟩
  · obtain ⟨rfl, rfl⟩ := (by simpa using h : CardValue.VQ = v ∧ t = r)
    exact Or.inl ⟨'Q', by decide, rfl⟩
  · obtain ⟨rfl, rfl⟩ := (by simpa using h : CardValue.VK = v ∧ t = r)
    exact Or.inl ⟨'K', by decide, rfl⟩
  · obtain ⟨rfl, rfl⟩ := (by simpa using h : CardValue.VT = v ∧ t = r)
    exact Or.inr rfl
  · simp at h
  · simp at h

/-- On success `read_suit` consumed exactly one suit character. -/
lemma read_suit_ok_consumed (s : List Char) (su : CardSuit) (r : List Char)
    (h : read_suit s = .ok (su, r)) : ∃ c, c ∈ suitChars ∧ s = c :: r := by
  rcases read_suit_cases s with ⟨rfl, he⟩ | ⟨t, rfl, he⟩ | ⟨t, rfl, he⟩ |
    ⟨t, rfl, he⟩ | ⟨t, rfl, he⟩ | ⟨c, t, rfl, hmem, he⟩ <;> rw [he] at h
  · simp at h
  · obtain ⟨rfl, rfl⟩ := (by simpa using h : CardSuit.Spades = su ∧ t = r)
    exact ⟨'S', by decide, rfl⟩
  · obtain ⟨rfl, rfl⟩ := (by simpa using h : CardSuit.Hearts = su ∧ t = r)
    exact ⟨'H', by decide, rfl⟩
  · obtain ⟨rfl, rfl⟩ := (by simpa using h : CardSuit.Diamonds = su ∧ t = r)
    exact ⟨'D', by decide, rfl⟩
  · obtain ⟨rfl, rfl⟩ := (by simpa using h : CardSuit.Clubs = su ∧ t = r)
    exact ⟨'C', by decide, rfl⟩
  · simp at h

lemma fold_results_nil (acc : List Card) : fold_results acc [] = .ok acc :=
  rfl

lemma fold_results_error_cons (acc : List Card) (e : ErrorKind) rest :
    fold_results acc (.error e :: rest) = .error e := rfl

lemma fold_results_ok_cons (acc : List Card) (c : Card × List Char) rest :
    fold_results acc (.ok c :: rest) = fold_results (acc ++ [c.1]) rest := rfl

/-- `fold_results` succeeds exactly when every element is a success, and
then returns the accumulator followed by the first components in order. -/
lemma fold_results_ok_iff
    (l : List (Except ErrorKind (Card × List Char))) (acc res : List Card) :
    fold_results acc l = .ok res ↔
      ∃ ps : List (Card × List Char),
        l = ps.map Except.ok ∧ res = acc ++ ps.map Prod.fst := by
  induction l generalizing acc with
  | nil =>
    rw [fold_results_nil]
    constructor
    · intro h
      obtain rfl := (by simpa using h : acc = res)
      exact ⟨[], rfl, by simp⟩
    · rintro ⟨ps, hps, rfl⟩
      have hnil : ps = [] := by simpa using hps.symm
      subst hnil
      simp
  | cons x rest ih =>
    cases x with
    | error e =>
      rw [fold_results_error_cons]
      constructor
      · intro h
        simp at h
      · rintro ⟨ps, hps, rfl⟩
        rcases ps with _ | ⟨q, qs⟩
        · simp at hps
        · simp at hps
    | ok c =>
      rw [fold_results_ok_cons, ih]
      constructor
      · rintro ⟨ps, rfl, rfl⟩
        exact ⟨c :: ps, rfl, by simp⟩
      · rintro ⟨ps, hps, rfl⟩
        rcases ps with _ | ⟨q, qs⟩
        · simp at hps
        · obtain ⟨rfl, hrest⟩ :=
            (by simpa using hps : c = q ∧ rest = qs.map Except.ok)
          exact ⟨qs, hrest, by simp⟩

/-- `fold_results` stops at the first error: if every element before the
error is a success, the error is returned. -/
lemma fold_results_append_error
    (l1 l2 : List (Except ErrorKind (Card × List Char))) (acc : List Card)
    (e : ErrorKind) (hok : ∀ x ∈ l1, ∃ c, x = .ok c) :
    fold_results acc (l1 ++ .error e :: l2) = .error e := by
  induction l1 generalizing acc with
  | nil => rfl
  | cons x xs ih =>
    obtain ⟨c, rfl⟩ := hok x (List.mem_cons_self _ _)
    rw [List.cons_append, fold_results_ok_cons]
    exact ih _ (fun y hy => hok y (List.mem_cons_of_mem _ hy))

/-- Pointwise reading of a successful mapped parse: each piece, trimmed and
parsed, produced the corresponding card in order. -/
lemma map_parse_ok_forall2 :
    ∀ (P : List (List Char)) (ps : List (Card × List Char)),
      (P.map trim).map parse = ps.map Except.ok →
      List.Forall₂
        (fun piece card => ∃ rest, parse (trim piece) = .ok (card, rest))
        P (ps.map Prod.fst) := by
  intro P
  induction P with
  | nil =>
    intro ps h
    have hnil : ps = [] := by simpa using h.symm
    subst hnil
    exact List.Forall₂.nil
  | cons p tl ih =>
    intro ps h
    rcases ps with _ | ⟨q, qs⟩
    · simp at h
    · simp only [List.map_cons, List.cons.injEq] at h
      exact List.Forall₂.cons ⟨q.2, h.1⟩ (ih qs h.2)

lemma utf8Size_of_valueChar (c : Char) (hc : c ∈ valueChars) :
    c.utf8Size = 1 := by
  simp only [valueChars, List.mem_cons, List.not_mem_nil, or_false] at hc
  rcases hc with rfl | rfl | rfl | rfl | rfl | rfl | rfl | rfl | rfl | rfl |
    rfl | rfl | rfl <;> rfl

lemma utf8Size_of_suitChar (c : Char) (hc : c ∈ suitChars) :
    c.utf8Size = 1 := by
  simp only [suitChars, List.mem_cons, List.not_mem_nil, or_false] at hc
  rcases hc with rfl | rfl | rfl | rfl <;> rfl

/-- C2: the derived orders are the reference orders: `CardValue` is a total
order in rank order Ace < 2 < ... < 9 < Ten < Jack < Queen < King;
`CardSuit` is a total order Clubs < Hearts < Spades < Diamonds; `Card`
comparison is lexicographic, suit first, then value within equal suits; in
particular Ace-of-Spades < Two-of-Spades. -/
theorem c2_derived_orders :
    (CardValue.lt .VA .V2 ∧ CardValue.lt .V2 .V3 ∧ CardValue.lt .V3 .V4 ∧
      CardValue.lt .V4 .V5 ∧ CardValue.lt .V5 .V6 ∧ CardValue.lt .V6 .V7 ∧
      CardValue.lt .V7 .V8 ∧ CardValue.lt .V8 .V9 ∧ CardValue.lt .V9 .VT ∧
      CardValue.lt .VT .VJ ∧ CardValue.lt .VJ .VQ ∧ CardValue.lt .VQ .VK) ∧
    (∀ a b : CardValue, a.lt b ∨ a = b ∨ b.lt a) ∧
    (∀ a b : CardValue, a.lt b → ¬ b.lt a ∧ a ≠ b) ∧
    (∀ a b c : CardValue, a.lt b → b.lt c → a.lt c) ∧
    (CardSuit.lt .Clubs .Hearts ∧ CardSuit.lt .Hearts .Spades ∧
      CardSuit.lt .Spades .Diamonds) ∧
    (∀ a b : CardSuit, a.lt b ∨ a = b ∨ b.lt a) ∧
    (∀ a b : CardSuit, a.lt b → ¬ b.lt a ∧ a ≠ b) ∧
    (∀ a b c : CardSuit, a.lt b → b.lt c → a.lt c) ∧
    (∀ c1 c2 : Card, c1.lt c2 ↔
      (c1.suit.lt c2.suit ∨ (c1.suit = c2.suit ∧ c1.val.lt c2.val))) ∧
    (∀ c1 c2 : Card, c1.lt c2 ∨ c1 = c2 ∨ c2.lt c1) ∧
    Card.lt (Card.new .VA .Spades) (Card.new .V2 .Spades) :=
  ⟨by decide, by decide, by decide, by decide, by decide, by decide,
   by decide, by decide, by decide, by decide, by decide⟩

/-- C2 witness: the transitivity component applied at concrete values. -/
theorem c2_derived_orders_witness : CardValue.lt .VA .V3 :=
  c2_derived_orders.2.2.2.1 .VA .V2 .V3 (by decide) (by decide)

/-- C3: `read_value` succeeds exactly on the recognized uppercase tokens,
returning the decoded value and the remainder after the consumed token:
each single-character token consumes one character, `"10"` consumes two,
`"T..."` and `"10..."` both decode Ten, and lowercase letters are
rejected. -/
theorem c3_read_value_success_tokens :
    (∀ r : List Char,
      read_value ('A' :: r) = .ok (CardValue.VA, r) ∧
      read_value ('2' :: r) = .ok (CardValue.V2, r) ∧
      read_value ('3' :: r) = .ok (CardValue.V3, r) ∧
      read_value ('4' :: r) = .ok (CardValue.V4, r) ∧
      read_value ('5' :: r) = .ok (CardValue.V5, r) ∧
      read_value ('6' :: r) = .ok (CardValue.V6, r) ∧
      read_value ('7' :: r) = .ok (CardValue.V7, r) ∧
      read_value ('8' :: r) = .ok (CardValue.V8, r) ∧
      read_value ('9' :: r) = .ok (CardValue.V9, r) ∧
      read_value ('T' :: r) = .ok (CardValue.VT, r) ∧
      read_value ('J' :: r) = .ok (CardValue.VJ, r) ∧
      read_value ('Q' :: r) = .ok (CardValue.VQ, r) ∧
      read_value ('K' :: r) = .ok (CardValue.VK, r) ∧
      read_value ('1' :: '0' :: r) = .ok (CardValue.VT, r)) ∧
    (∀ s v r, read_value s = .ok (v, r) →
      (s = 'A' :: r ∧ v = .VA) ∨ (s = '2' :: r ∧ v = .V2) ∨
      (s = '3' :: r ∧ v = .V3) ∨ (s = '4' :: r ∧ v = .V4) ∨
      (s = '5' :: r ∧ v = .V5) ∨ (s = '6' :: r ∧ v = .V6) ∨
      (s = '7' :: r ∧ v = .V7) ∨ (s = '8' :: r ∧ v = .V8) ∨
      (s = '9' :: r ∧ v = .V9) ∨ (s = 'T' :: r ∧ v = .VT) ∨
      (s = 'J' :: r ∧ v = .VJ) ∨ (s = 'Q' :: r ∧ v = .VQ) ∨
      (s = 'K' :: r ∧ v = .VK) ∨ (s = '1' :: '0' :: r ∧ v = .VT)) ∧
    (∀ c r, 'a' ≤ c → c ≤ 'z' →
      read_value (c :: r) = .error (.UnrecognizedCardValue (c :: r))) := by
  refine ⟨fun r => ⟨rfl, rfl, rfl, rfl, rfl, rfl, rfl, rfl, rfl, rfl, rfl,
    rfl, rfl, rfl⟩, ?_, ?_⟩
  · intro s v r h
    rcases read_value_cases s with ⟨rfl, he⟩ | ⟨t, rfl, he⟩ | ⟨t, rfl, he⟩ |
      ⟨t, rfl, he⟩ | ⟨t, rfl, he⟩ | ⟨t, rfl, he⟩ | ⟨t, rfl, he⟩ |
      ⟨t, rfl, he⟩ | ⟨t, rfl, he⟩ | ⟨t, rfl, he⟩ | ⟨t, rfl, he⟩ |
      ⟨t, rfl, he⟩ | ⟨t, rfl, he⟩ | ⟨t, rfl, he⟩ | ⟨t, rfl, he⟩ |
      ⟨t, rfl, hne, he⟩ | ⟨c, t, rfl, hmem, he⟩ <;> rw [he] at h
    · exact absurd h (by simp)
    · obtain ⟨rfl, rfl⟩ := (by simpa using h : CardValue.VA = v ∧ t = r)
      exact Or.inl ⟨rfl, rfl⟩
    · obtain ⟨rfl, rfl⟩ := (by simpa using h : CardValue.V2 = v ∧ t = r)
      right; exact Or.inl ⟨rfl, rfl⟩
    · obtain ⟨rfl, rfl⟩ := (by simpa using h : CardValue.V3 = v ∧ t = r)
      right; right; exact Or.inl ⟨rfl, rfl⟩
    · obtain ⟨rfl, rfl⟩ := (by simpa using h : CardValue.V4 = v ∧ t = r)
      right; right; right; exact Or.inl ⟨rfl, rfl⟩
    · obtain ⟨rfl, rfl⟩ := (by simpa using h : CardValue.V5 = v ∧ t = r)
      right; right; right; right; exact Or.inl ⟨rfl, rfl⟩
    · obtain ⟨rfl, rfl⟩ := (by simpa using h : CardValue.V6 = v ∧ t = r)
      right; right; right; right; right; exact Or.inl ⟨rfl, rfl⟩
    · obtain ⟨rfl, rfl⟩ := (by simpa using h : CardValue.V7 = v ∧ t = r)
      right; right; right; right; right; right; exact Or.inl ⟨rfl, rfl⟩
    · obtain ⟨rfl, rfl⟩ := (by simpa using h : CardValue.V8 = v ∧ t = r)
      right; right; right; right; right; right; right
      exact Or.inl ⟨rfl, rfl⟩
    · obtain ⟨rfl, rfl⟩ := (by simpa using h : CardValue.V9 = v ∧ t = r)
      right; right; right; right; right; right; right; right
      exact Or.inl ⟨rfl, rfl⟩
    · obtain ⟨rfl, rfl⟩ := (by simpa using h : CardValue.VT = v ∧ t = r)
      right; right; right; right; right; right; right; right; right
      exact Or.inl ⟨rfl, rfl⟩
    · obtain ⟨rfl, rfl⟩ := (by simpa using h : CardValue.VJ = v ∧ t = r)
      right; right; right; right; right; right; right; right; right; right
      exact Or.inl ⟨rfl, rfl⟩
    · obtain ⟨rfl, rfl⟩ := (by simpa using h : CardValue.VQ = v ∧ t = r)
      right; right; right; right; right; right; right; right; right; right
      right; exact Or.inl ⟨rfl, rfl⟩
    · obtain ⟨rfl, rfl⟩ := (by simpa using h : CardValue.VK = v ∧ t = r)
      right; right; right; right; right; right; right; right; right; right
      right; right; exact Or.inl ⟨rfl, rfl⟩
    · obtain ⟨rfl, rfl⟩ := (by simpa using h : CardValue.VT = v ∧ t = r)
      right; right; right; right; right; right; right; right; right; right
      right; right; right; exact ⟨rfl, rfl⟩
    · exact absurd h (by simp)
    · exact absurd h (by simp)
  · intro c r hlo hhi
    rcases read_value_cases (c :: r) with ⟨he, _⟩ | h | h | h | h | h | h |
      h | h | h | h | h | h | h | h | h | h
    · exact List.noConfusion he
    all_goals first
      | (obtain ⟨t, he, hne, herr⟩ := h
         exact herr)
      | (obtain ⟨c2, t, he, hmem, herr⟩ := h
         exact herr)
      | (obtain ⟨t, he, hrest⟩ := h
         injection he with h1 h2
         subst h1
         exact absurd hlo (by decide))

/-- C3 witness: the lowercase-rejection component applied at a concrete
input. -/
theorem c3_read_value_success_tokens_witness :
    read_value ['a', 'S'] = .error (.UnrecognizedCardValue ['a', 'S']) :=
  c3_read_value_success_tokens.2.2 'a' ['S'] (by decide) (by decide)

/-- C4: `read_value` fails exactly when the input is empty, or its first
character is neither a recognized value character nor `'1'`, or it starts
with `'1'` not immediately followed by `'0'` (including `"1"` alone); every
failure is `UnrecognizedCardValue` carrying exactly the full input text. -/
theorem c4_read_value_failure :
    ∀ s : List Char,
      (read_value s = .error (.UnrecognizedCardValue s) ↔
        (s = [] ∨
         (∃ c t, s = c :: t ∧ c ∉ valueChars ∧ c ≠ '1') ∨
         s = ['1'] ∨
         (∃ d u, s = '1' :: d :: u ∧ d ≠ '0'))) ∧
      (∀ e, read_value s = .error e → e = .UnrecognizedCardValue s) := by
  intro s
  constructor
  · constructor
    · intro h
      rcases read_value_cases s with ⟨rfl, he⟩ | ⟨t, rfl, he⟩ | ⟨t, rfl, he⟩ |
        ⟨t, rfl, he⟩ | ⟨t, rfl, he⟩ | ⟨t, rfl, he⟩ | ⟨t, rfl, he⟩ |
        ⟨t, rfl, he⟩ | ⟨t, rfl, he⟩ | ⟨t, rfl, he⟩ | ⟨t, rfl, he⟩ |
        ⟨t, rfl, he⟩ | ⟨t, rfl, he⟩ | ⟨t, rfl, he⟩ | ⟨t, rfl, he⟩ |
        ⟨t, rfl, hne, he⟩ | ⟨c, t, rfl, hmem, he⟩
      · exact Or.inl rfl
      all_goals rw [he] at h
      all_goals try simp at h
      · rcases t with _ | ⟨d, u⟩
        · exact Or.inr (Or.inr (Or.inl rfl))
        · refine Or.inr (Or.inr (Or.inr ⟨d, u, rfl, fun hd => ?_⟩))
          exact hne u (by rw [hd])
      · refine Or.inr (Or.inl ⟨c, t, rfl, ?_, ?_⟩)
        · intro hc
          exact hmem (List.mem_cons_of_mem _ hc)
        · intro hc
          exact hmem (by rw [hc]; exact List.mem_cons_self _ _)
    · intro h
      rcases h with rfl | ⟨c, t, rfl, hnotin, hne1⟩ | rfl | ⟨d, u, rfl, hd⟩
      · rfl
      · rcases read_value_cases (c :: t) with ⟨he, _⟩ | h | h | h | h | h |
          h | h | h | h | h | h | h | h | h | h | h
        · exact List.noConfusion he
        all_goals first
          | (obtain ⟨t2, he, hne, herr⟩ := h
             exact herr)
          | (obtain ⟨c2, t2, he, hmem, herr⟩ := h
             exact herr)
          | (obtain ⟨t2, he, hrest⟩ := h
             exfalso
             injection he with h1 h2
             first
               | exact hne1 h1
               | exact hnotin (by rw [h1]; decide))
      · rfl
      · have hbase : read_value_scan ('1' :: d :: u) =
            (if d = '0' then (2, some CardValue.VT) else (1, none)) := by
          rw [read_value_scan_cons, if_neg (by decide), if_neg (by decide),
            if_neg (by decide), if_neg (by decide), if_neg (by decide),
            if_neg (by decide), if_neg (by decide), if_neg (by decide),
            if_neg (by decide), if_neg (by decide), if_neg (by decide),
            if_neg (by decide), if_neg (by decide), if_pos rfl]
        unfold read_value
        rw [hbase.trans (if_neg hd)]
  · intro e h
    rcases read_value_cases s with ⟨rfl, he⟩ | ⟨t, rfl, he⟩ | ⟨t, rfl, he⟩ |
      ⟨t, rfl, he⟩ | ⟨t, rfl, he⟩ | ⟨t, rfl, he⟩ | ⟨t, rfl, he⟩ |
      ⟨t, rfl, he⟩ | ⟨t, rfl, he⟩ | ⟨t, rfl, he⟩ | ⟨t, rfl, he⟩ |
      ⟨t, rfl, he⟩ | ⟨t, rfl, he⟩ | ⟨t, rfl, he⟩ | ⟨t, rfl, he⟩ |
      ⟨t, rfl, hne, he⟩ | ⟨c, t, rfl, hmem, he⟩
    all_goals rw [he] at h
    all_goals first
      | (injection h with h1
         exact h1.symm)
      | injection h

/-- C4 witness: the failure characterization applied at the concrete input
`"1X"` (a `'1'` not followed by `'0'`). -/
theorem c4_read_value_failure_witness :
    read_value ['1', 'X'] = .error (.UnrecognizedCardValue ['1', 'X']) :=
  (c4_read_value_failure ['1', 'X']).1.mpr
    (Or.inr (Or.inr (Or.inr ⟨'X', [], rfl, by decide⟩)))

/-- C5: `read_suit` succeeds exactly when the first character is one of
`'S'`, `'H'`, `'D'`, `'C'` (uppercase only), decoding the corresponding
suit and consuming exactly one character; otherwise it fails with
`UnrecognizedSuit` carrying exactly the text passed in. -/
theorem c5_read_suit_characterization :
    (∀ r : List Char,
      read_suit ('S' :: r) = .ok (CardSuit.Spades, r) ∧
      read_suit ('H' :: r) = .ok (CardSuit.Hearts, r) ∧
      read_suit ('D' :: r) = .ok (CardSuit.Diamonds, r) ∧
      read_suit ('C' :: r) = .ok (CardSuit.Clubs, r)) ∧
    (∀ s su r, read_suit s = .ok (su, r) →
      (s = 'S' :: r ∧ su = .Spades) ∨ (s = 'H' :: r ∧ su = .Hearts) ∨
      (s = 'D' :: r ∧ su = .Diamonds) ∨ (s = 'C' :: r ∧ su = .Clubs)) ∧
    (∀ s, read_suit s = .error (.UnrecognizedSuit s) ↔
      (s = [] ∨ ∃ c t, s = c :: t ∧ c ∉ suitChars)) ∧
    (∀ s e, read_suit s = .error e → e = .UnrecognizedSuit s) := by
  refine ⟨fun r => ⟨rfl, rfl, rfl, rfl⟩, ?_, ?_, ?_⟩
  · intro s su r h
    rcases read_suit_cases s with ⟨rfl, he⟩ | ⟨t, rfl, he⟩ | ⟨t, rfl, he⟩ |
      ⟨t, rfl, he⟩ | ⟨t, rfl, he⟩ | ⟨c, t, rfl, hmem, he⟩ <;> rw [he] at h
    · exact absurd h (by simp)
    · obtain ⟨rfl, rfl⟩ := (by simpa using h : CardSuit.Spades = su ∧ t = r)
      exact Or.inl ⟨rfl, rfl⟩
    · obtain ⟨rfl, rfl⟩ := (by simpa using h : CardSuit.Hearts = su ∧ t = r)
      exact Or.inr (Or.inl ⟨rfl, rfl⟩)
    · obtain ⟨rfl, rfl⟩ :=
        (by simpa using h : CardSuit.Diamonds = su ∧ t = r)
      exact Or.inr (Or.inr (Or.inl ⟨rfl, rfl⟩))
    · obtain ⟨rfl, rfl⟩ := (by simpa using h : CardSuit.Clubs = su ∧ t = r)
      exact Or.inr (Or.inr (Or.inr ⟨rfl, rfl⟩))
    · exact absurd h (by simp)
  · intro s
    constructor
    · intro h
      rcases read_suit_cases s with ⟨rfl, he⟩ | ⟨t, rfl, he⟩ | ⟨t, rfl, he⟩ |
        ⟨t, rfl, he⟩ | ⟨t, rfl, he⟩ | ⟨c, t, rfl, hmem, he⟩ <;> rw [he] at h
      · exact Or.inl rfl
      all_goals try simp at h
      exact Or.inr ⟨c, t, rfl, hmem⟩
    · intro h
      rcases h with rfl | ⟨c, t, rfl, hmem⟩
      · rfl
      · rcases read_suit_cases (c :: t) with ⟨he, _⟩ | h | h | h | h | h
        · exact List.noConfusion he
        all_goals first
          | (obtain ⟨c2, t2, he, hmem2, herr⟩ := h
             exact herr)
          | (obtain ⟨t2, he, hok⟩ := h
             exfalso
             injection he with h1 h2
             exact hmem (by rw [h1]; decide))
  · intro s e h
    rcases read_suit_cases s with ⟨rfl, he⟩ | ⟨t, rfl, he⟩ | ⟨t, rfl, he⟩ |
      ⟨t, rfl, he⟩ | ⟨t, rfl, he⟩ | ⟨c, t, rfl, hmem, he⟩
    all_goals rw [he] at h
    all_goals first
      | (injection h with h1
         exact h1.symm)
      | injection h

/-- C5 witness: the failure characterization applied at the concrete input
`"X"` together with a concrete success. -/
theorem c5_read_suit_characterization_witness :
    read_suit ['X'] = .error (.UnrecognizedSuit ['X']) :=
  (c5_read_suit_characterization.2.2.1 ['X']).mpr
    (Or.inr ⟨'X', [], rfl, by decide⟩)

/-- C6: `Card::parse` is the composition of the two readers: a value read
off the whole input, a suit read off the value's remainder, the card built
from both, the final remainder being the input minus the consumed prefix;
each reader's error is propagated unmodified, and `"ASREST"` parses to
(Ace-of-Spades, `"REST"`). -/
theorem c6_parse_is_reader_composition :
    (∀ s v r1 su r2, read_value s = .ok (v, r1) →
      read_suit r1 = .ok (su, r2) → parse s = .ok (Card.new v su, r2)) ∧
    (∀ s e, read_value s = .error e → parse s = .error e) ∧
    (∀ s v r1 e, read_value s = .ok (v, r1) → read_suit r1 = .error e →
      parse s = .error e) ∧
    (∀ s c r, parse s = .ok (c, r) → ∃ p, s = p ++ r) ∧
    parse ['A', 'S', 'R', 'E', 'S', 'T'] =
      .ok (Card.new .VA .Spades, ['R', 'E', 'S', 'T']) := by
  refine ⟨?_, ?_, ?_, ?_, rfl⟩
  · intro s v r1 su r2 hv hs
    unfold parse
    rw [hv]
    dsimp only
    rw [hs]
  · intro s e hv
    unfold parse
    rw [hv]
  · intro s v r1 e hv hs
    unfold parse
    rw [hv]
    dsimp only
    rw [hs]
  · intro s c r h
    unfold parse at h
    rcases hv : read_value s with e | ⟨v, r1⟩ <;> rw [hv] at h
    · simp at h
    dsimp only at h
    rcases hs : read_suit r1 with e | ⟨su, r2⟩ <;> rw [hs] at h
    · simp at h
    obtain ⟨rfl, rfl⟩ := (by simpa using h : Card.new v su = c ∧ r2 = r)
    obtain ⟨sc, hsc, rfl⟩ := read_suit_ok_consumed r1 su _ hs
    rcases read_value_ok_consumed s v _ hv with ⟨cv, hcv, rfl⟩ | rfl
    · exact ⟨[cv, sc], rfl⟩
    · exact ⟨['1', '0', sc], rfl⟩

/-- C6 witness: the composition component applied at the concrete input
`"10H!"`. -/
theorem c6_parse_is_reader_composition_witness :
    parse ['1', '0', 'H', '!'] = .ok (Card.new .VT .Hearts, ['!']) :=
  c6_parse_is_reader_composition.1 ['1', '0', 'H', '!'] .VT ['H', '!']
    .Hearts ['!'] rfl rfl

/-- C9: the default-delimiter list parse equals the caller-supplied-
delimiter list parse at `","`, on every input. -/
theorem c9_parse_vec_is_comma_parse_vec_pat :
    ∀ s : List Char, parse_vec s = parse_vec_pat s [','] := fun _ => rfl

/-- C1: evaluating the list parser at the piece `"AS2H"`, whose single-card
parse succeeds with non-empty remainder `"2H"`: the list parse returns
`Ok([Ace-of-Spades])`, silently discarding `"2H"` instead of failing. -/
theorem c1_trailing_remainder_silently_dropped :
    parse ['A', 'S', '2', 'H'] = .ok (Card.new .VA .Spades, ['2', 'H']) ∧
    parse_vec_pat ['A', 'S', '2', 'H'] [','] = .ok [Card.new .VA .Spades] ∧
    parse_vec ['A', 'S', '2', 'H'] = .ok [Card.new .VA .Spades] :=
  ⟨rfl, rfl, rfl⟩

/-- C7: on success the list parser returns exactly one card per
delimiter-separated piece, in the original left-to-right order, each piece
being whitespace-trimmed before the single-card parse; `"AS,2H,8C"` yields
[Ace-Spades, Two-Hearts, Eight-Clubs] and `"AS, 2H"` parses identically to
`"AS,2H"`. -/
theorem c7_parse_vec_pat_pieces_in_order :
    (∀ s pat cards, parse_vec_pat s pat = .ok cards →
      List.Forall₂
        (fun piece card => ∃ rest, parse (trim piece) = .ok (card, rest))
        (rustSplit s pat) cards) ∧
    parse_vec_pat ['A', 'S', ',', '2', 'H', ',', '8', 'C'] [','] =
      .ok [Card.new .VA .Spades, Card.new .V2 .Hearts,
        Card.new .V8 .Clubs] ∧
    parse_vec_pat ['A', 'S', ',', ' ', '2', 'H'] [','] =
      parse_vec_pat ['A', 'S', ',', '2', 'H'] [','] ∧
    parse_vec_pat ['A', 'S', ',', ' ', '2', 'H'] [','] =
      .ok [Card.new .VA .Spades, Card.new .V2 .Hearts] := by
  refine ⟨?_, rfl, rfl, rfl⟩
  intro s pat cards h
  unfold parse_vec_pat at h
  rw [fold_results_ok_iff] at h
  obtain ⟨ps, hmap, hc⟩ := h
  simp only [List.nil_append] at hc
  subst hc
  exact map_parse_ok_forall2 _ _ hmap

/-- C7 witness: the pointwise component applied at a concrete success. -/
theorem c7_parse_vec_pat_pieces_in_order_witness :
    List.Forall₂
      (fun piece card => ∃ rest, parse (trim piece) = .ok (card, rest))
      (rustSplit ['A', 'S', ',', '2', 'H'] [','])
      [Card.new .VA .Spades, Card.new .V2 .Hearts] :=
  c7_parse_vec_pat_pieces_in_order.1 ['A', 'S', ',', '2', 'H'] [',']
    [Card.new .VA .Spades, Card.new .V2 .Hearts] rfl

/-- C8: the list parser fails with exactly the first piece's error, parsing
no later piece (only one error is ever produced, the leftmost); the empty
input is a single empty piece failing with `UnrecognizedCardValue ""`, and
consecutive delimiters (`"AS,,2H"`) produce an empty piece with the same
failure. -/
theorem c8_parse_vec_pat_first_error :
    (∀ s pat pref piece suf e,
      rustSplit s pat = pref ++ piece :: suf →
      (∀ q, q ∈ pref → ∃ c, parse (trim q) = .ok c) →
      parse (trim piece) = .error e →
      parse_vec_pat s pat = .error e) ∧
    (∀ pat, parse_vec_pat [] pat = .error (.UnrecognizedCardValue [])) ∧
    (∀ pat, pat ≠ [] → rustSplit [] pat = [[]]) ∧
    parse_vec_pat ['A', 'S', ',', ',', '2', 'H'] [','] =
      .error (.UnrecognizedCardValue []) := by
  have hsplit_nil : ∀ pat, pat ≠ ([] : List Char) → rustSplit [] pat = [[]] := by
    intro pat hp
    rcases pat with _ | ⟨p, ps⟩
    · exact absurd rfl hp
    · rfl
  refine ⟨?_, ?_, hsplit_nil, rfl⟩
  · intro s pat pref piece suf e hsp hpref herr
    unfold parse_vec_pat
    rw [hsp]
    simp only [List.map_append, List.map_cons]
    rw [herr]
    apply fold_results_append_error
    intro x hx
    simp only [List.map_map, List.mem_map] at hx
    obtain ⟨q, hq, rfl⟩ := hx
    exact hpref q hq
  · intro pat
    by_cases hp : pat = []
    · subst hp
      rfl
    · unfold parse_vec_pat
      rw [hsplit_nil pat hp]
      rfl

/-- C8 witness: the first-error component applied at `"AS,,2H"`. -/
theorem c8_parse_vec_pat_first_error_witness :
    parse_vec_pat ['A', 'S', ',', 'X', 'S', ',', '2', 'H'] [','] =
      .error (.UnrecognizedCardValue ['X', 'S']) :=
  c8_parse_vec_pat_first_error.1 ['A', 'S', ',', 'X', 'S', ',', '2', 'H']
    [','] [['A', 'S']] ['X', 'S'] [['2', 'H']] _ rfl
    (by
      intro q hq
      simp only [List.mem_singleton] at hq
      subst hq
      exact ⟨(Card.new .VA .Spades, []), rfl⟩)
    rfl

/-- C10: whenever a reader (or their composition `parse`) succeeds, the
remainder is the input minus a prefix of `k` characters whose UTF-8 byte
length is exactly `k` (every consumed character is one-byte ASCII), and
`k` is at most the input length: the byte indices `&s[1..]`, `&s[2..]` used
by the source always fall on a character boundary inside the string, so no
slice can panic on any input. -/
theorem c10_slicing_stays_on_char_boundaries :
    (∀ s v rest, read_value s = .ok (v, rest) →
      ∃ k, rest = s.drop k ∧ k ≤ s.length ∧
        ((s.take k).map Char.utf8Size).sum = k) ∧
    (∀ s su rest, read_suit s = .ok (su, rest) →
      rest = s.drop 1 ∧ 1 ≤ s.length ∧
        ((s.take 1).map Char.utf8Size).sum = 1) ∧
    (∀ s c rest, parse s = .ok (c, rest) →
      ∃ k, rest = s.drop k ∧ k ≤ s.length ∧
        ((s.take k).map Char.utf8Size).sum = k) := by
  refine ⟨?_, ?_, ?_⟩
  · intro s v rest h
    rcases read_value_ok_consumed s v rest h with ⟨c, hc, rfl⟩ | rfl
    · exact ⟨1, rfl, by simp, by simp [utf8Size_of_valueChar c hc]⟩
    · exact ⟨2, rfl, by simp, by
        simp [show ('1' : Char).utf8Size = 1 from rfl,
          show ('0' : Char).utf8Size = 1 from rfl]⟩
  · intro s su rest h
    obtain ⟨c, hc, rfl⟩ := read_suit_ok_consumed s su rest h
    exact ⟨rfl, by simp, by simp [utf8Size_of_suitChar c hc]⟩
  · intro s c rest h
    unfold parse at h
    rcases hv : read_value s with e | ⟨v, r1⟩ <;> rw [hv] at h
    · simp at h
    dsimp only at h
    rcases hs : read_suit r1 with e | ⟨su, r2⟩ <;> rw [hs] at h
    · simp at h
    obtain ⟨rfl, rfl⟩ := (by simpa using h : Card.new v su = c ∧ r2 = rest)
    obtain ⟨sc, hsc, rfl⟩ := read_suit_ok_consumed r1 su _ hs
    rcases read_value_ok_consumed s v _ hv with ⟨cv, hcv, rfl⟩ | rfl
    · exact ⟨2, rfl, by simp, by
        simp [utf8Size_of_valueChar cv hcv, utf8Size_of_suitChar sc hsc]⟩
    · exact ⟨3, rfl, by simp, by
        simp [utf8Size_of_suitChar sc hsc,
          show ('1' : Char).utf8Size = 1 from rfl,
          show ('0' : Char).utf8Size = 1 from rfl]⟩

/-- C10 witness: the `parse` component applied at the concrete input
`"10S"`. -/
theorem c10_slicing_stays_on_char_boundaries_witness :
    ∃ k, ([] : List Char) = (['1', '0', 'S'] : List Char).drop k ∧
      k ≤ (['1', '0', 'S'] : List Char).length ∧
      (((['1', '0', 'S'] : List Char).take k).map Char.utf8Size).sum = k :=
  c10_slicing_stays_on_char_boundaries.2.2 ['1', '0', 'S']
    (Card.new .VT .Spades) [] rfl

end Crdsrt
